import Mathlib

/-
Shallow embedding of the identity-and-directory service: user entities,
the in-memory user store, the directory authorization use cases, and the
session-token codec with the authentication flow, together with theorems
settling the spec claims about them.
-/

namespace App

/-- representation of a user in our system (entities.User). -/
structure User where
  id : String
  email : String
  first_name : String
  last_name : String
  organization_id : String
  is_admin : Bool
deriving DecidableEq, Repr

/-- limited user data object with password hash (entities.AuthUser). -/
structure AuthUser where
  id : String
  email : String
  password_hash : String
  organization_id : String
  is_admin : Bool
deriving DecidableEq, Repr

/-- user data extracted from access token (entities.SessionUser). -/
structure SessionUser where
  id : String
  email : String
  organization_id : String
  is_admin : Bool
deriving DecidableEq, Repr

/-- data to create a new user (entities.NewUserDTO). -/
structure NewUserDTO where
  email : String
  first_name : String
  last_name : String
  organization_id : String
  password_hash : String
  is_admin : Bool
deriving DecidableEq, Repr

/-- the plain dict held per user in MemoryUserRepository._users: the full
field set, including the password hash (fixture records and records built
by save_new_user both carry all seven keys). -/
structure StoredUser where
  id : String
  email : String
  first_name : String
  last_name : String
  organization_id : String
  is_admin : Bool
  password_hash : String
deriving DecidableEq, Repr

/-- a value held under a key of a stored user dict (str or bool). -/
inductive FieldValue
  | s : String → FieldValue
  | b : Bool → FieldValue
deriving DecidableEq, Repr

/-- dict access entity[key] on a stored user dict: some value for the seven
known keys, none (Python KeyError) otherwise. -/
def StoredUser.getField (u : StoredUser) (key : String) : Option FieldValue :=
  if key = "id" then some (.s u.id)
  else if key = "email" then some (.s u.email)
  else if key = "first_name" then some (.s u.first_name)
  else if key = "last_name" then some (.s u.last_name)
  else if key = "organization_id" then some (.s u.organization_id)
  else if key = "is_admin" then some (.b u.is_admin)
  else if key = "password_hash" then some (.s u.password_hash)
  else none

/-- whether a key is one of the seven fields of a stored user dict. -/
def validField (key : String) : Bool :=
  key == "id" || key == "email" || key == "first_name" || key == "last_name" ||
    key == "organization_id" || key == "is_admin" || key == "password_hash"

/-- errors raised inside the repository layer: KeyError from entity[key] on
an unknown filter key, ValueError from update/delete on a missing id. -/
inductive RepoError
  | keyError (key : String)
  | notFound (id : String)
deriving DecidableEq, Repr

/-- MemoryUserRepository._users, a dict keyed by id, modelled as the list of
its values in insertion order. -/
abbrev Store := List StoredUser

/-- projection of a stored dict to the public User entity, as User(**user)
builds it (pydantic ignores the extra password_hash key). -/
def User.ofStored (u : StoredUser) : User :=
  ⟨u.id, u.email, u.first_name, u.last_name, u.organization_id, u.is_admin⟩

/-- MemoryUserRepository.find_all: all stored users as User entities. -/
def MemoryUserRepository.find_all (store : Store) : List User :=
  store.map User.ofStored

/-- one step of filter_entities_by_attributes: the list comprehension
keeping entities whose value under key equals value; entity[key] raises
KeyError at the first entity lacking the key. -/
def filterByKey (key : String) (value : FieldValue) :
    List StoredUser → Except RepoError (List StoredUser)
  | [] => .ok []
  | e :: rest =>
    match e.getField key with
    | none => .error (.keyError key)
    | some x =>
      match filterByKey key value rest with
      | .error err => .error err
      | .ok tail => .ok (if x = value then e :: tail else tail)

/-- adapters.repositories.utils.filter_entities_by_attributes: successively
filter the stored dicts by each key/value pair of the attributes dict, in
insertion order. -/
def filter_entities_by_attributes (store : Store) :
    List (String × FieldValue) → Except RepoError (List StoredUser)
  | [] => .ok store
  | (k, v) :: rest =>
    match filterByKey k v store with
    | .error err => .error err
    | .ok s => filter_entities_by_attributes s rest

/-- MemoryUserRepository.find_users_by_attributes: filter then project. -/
def MemoryUserRepository.find_users_by_attributes (store : Store)
    (attributes : List (String × FieldValue)) : Except RepoError (List User) :=
  match filter_entities_by_attributes store attributes with
  | .error err => .error err
  | .ok l => .ok (l.map User.ofStored)

/-- MemoryUserRepository.get_user_by_id: dict lookup by id, projected. -/
def MemoryUserRepository.get_user_by_id (store : Store) (id : String) :
    Option User :=
  match store.find? (fun u => u.id = id) with
  | some u => some (User.ofStored u)
  | none => none

/-- MemoryUserRepository.save_new_user with the fresh id the uuid retry
loop settled on: append the new dict and return the User projection. -/
def MemoryUserRepository.save_new_user (store : Store) (data : NewUserDTO)
    (id : String) : User × Store :=
  let u : StoredUser := ⟨id, data.email, data.first_name, data.last_name,
    data.organization_id, data.is_admin, data.password_hash⟩
  (User.ofStored u, store ++ [u])

/-- the dict merge of update_user: user.dict() carries the six User keys,
so every stored key but password_hash is overwritten. -/
def mergeUser (old : StoredUser) (user : User) : StoredUser :=
  ⟨user.id, user.email, user.first_name, user.last_name,
    user.organization_id, user.is_admin, old.password_hash⟩

/-- MemoryUserRepository.update_user: ValueError when the id is absent
(store untouched), else merge the record in place. -/
def MemoryUserRepository.update_user (store : Store) (user : User) :
    (Except RepoError User) × Store :=
  if store.any (fun s => s.id = user.id) then
    (.ok user, store.map (fun s => if s.id = user.id then mergeUser s user else s))
  else
    (.error (.notFound user.id), store)

/-- Modelled from the spec: MemoryUserRepository does not define
get_auth_user_by_email under src (only its callers in UserService and
AuthService and its test mocks appear), so the store operation is modelled
from the spec sentence: returns the record including password hash; absent
(not error) when email not found. -/
def MemoryUserRepository.get_auth_user_by_email (store : Store)
    (email : String) : Option AuthUser :=
  match store.find? (fun u => u.email = email) with
  | some u => some ⟨u.id, u.email, u.password_hash, u.organization_id, u.is_admin⟩
  | none => none

/-- UserService.get_user_by_email: first match of the email filter, none
when the filter result is empty. -/
def UserService.get_user_by_email (store : Store) (email : String) :
    Except RepoError (Option User) :=
  match MemoryUserRepository.find_users_by_attributes store [("email", .s email)] with
  | .error err => .error err
  | .ok [] => .ok none
  | .ok (u :: _) => .ok (some u)

/-- errors surfacing from the user service layer: ValueError on duplicate
email (the spec's DuplicateEmailError), or a repository error propagating
through the uniqueness lookup. -/
inductive ServiceError
  | duplicateEmail (email : String)
  | fromRepo (err : RepoError)
deriving DecidableEq, Repr

/-- UserService.save_new_user: check email for uniqueness, raise before the
repository call when a record with the email exists (store untouched), else
create through the repository. -/
def UserService.save_new_user (store : Store) (data : NewUserDTO)
    (freshId : String) : (Except ServiceError User) × Store :=
  match UserService.get_user_by_email store data.email with
  | .error err => (.error (.fromRepo err), store)
  | .ok (some _) => (.error (.duplicateEmail data.email), store)
  | .ok none =>
    let r := MemoryUserRepository.save_new_user store data freshId
    (.ok r.1, r.2)

/-- GetUserDetailsUseCase.execute. -/
def GetUserDetailsUseCase.execute (store : Store) (user_id : String)
    (current_user : Option SessionUser) : Option User :=
  match current_user with
  | none => none
  | some cu =>
    let user := MemoryUserRepository.get_user_by_id store user_id
    if cu.is_admin then user
    else
      match user with
      | some u => if u.organization_id = cu.organization_id then some u else none
      | none => none

/-- ListUsersUseCase.execute. -/
def ListUsersUseCase.execute (store : Store)
    (current_user : Option SessionUser) : Except RepoError (List User) :=
  match current_user with
  | none => .ok []
  | some cu =>
    if cu.is_admin then .ok (MemoryUserRepository.find_all store)
    else
      MemoryUserRepository.find_users_by_attributes store
        [("organization_id", .s cu.organization_id)]

/-- codec configuration consumed by AuthService (config.services.auth):
signing secret, algorithm, token ttl seconds. -/
structure AuthConfig where
  secret : String
  algorithm : String
  token_ttl : Nat
deriving DecidableEq, Repr

/-- the "user" object of a token payload as decoded JSON: each field may be
missing (SessionUser(**decoded["user"]) raises when one is). -/
structure UserClaims where
  id : Option String
  email : Option String
  organization_id : Option String
  is_admin : Option Bool
deriving DecidableEq, Repr

/-- the claim set of a decoded token: sub, user object and exp may each be
missing. -/
structure JwtPayload where
  sub : Option String
  user : Option UserClaims
  exp : Option Nat
deriving DecidableEq, Repr

/-- one field of the payload rendered for signing. -/
def optStr : Option String → String
  | none => "-"
  | some s => "+" ++ s

/-- the user object of the payload rendered for signing. -/
def userClaimsStr : Option UserClaims → String
  | none => "-"
  | some c =>
    "+" ++ optStr c.id ++ "," ++ optStr c.email ++ "," ++
      optStr c.organization_id ++ "," ++
      (match c.is_admin with
       | none => "-"
       | some b => if b then "+T" else "+F")

/-- modelled collaborator: the jose symmetric signature over a claim set, a
deterministic function of secret, algorithm and claims (the cryptographic
MAC itself is an external primitive outside the core design). -/
def signPayload (secret algorithm : String) (p : JwtPayload) : String :=
  secret ++ "|" ++ algorithm ++ "|" ++ optStr p.sub ++ "|" ++
    userClaimsStr p.user ++ "|" ++
    (match p.exp with
     | none => "-"
     | some e => "+" ++ toString e)

/-- a token string as jwt.decode parses it: either a structurally valid JWT
carrying a claim set and a signature part, or any other string. -/
inductive Token
  | jwt (payload : JwtPayload) (sig : String)
  | malformed (raw : String)
deriving DecidableEq, Repr

/-- the exceptions jwt.decode raises, all caught by get_session_user. -/
inductive JwtError
  | malformedToken
  | badSignature
  | expired
deriving DecidableEq, Repr

/-- jwt.encode: attach the signature over the claims. -/
def jwtEncode (p : JwtPayload) (secret algorithm : String) : Token :=
  .jwt p (signPayload secret algorithm p)

/-- jwt.decode at current time now: reject non-JWT strings, reject a
signature that is not the signature of the claims under the given secret
and algorithm, reject an exp claim lying in the past (jose validates exp
only when present, with zero leeway), else return the claims. -/
def jwtDecode (t : Token) (secret algorithm : String) (now : Nat) :
    Except JwtError JwtPayload :=
  match t with
  | .malformed _ => .error .malformedToken
  | .jwt p sig =>
    if sig = signPayload secret algorithm p then
      match p.exp with
      | some e => if e < now then .error .expired else .ok p
      | none => .ok p
    else .error .badSignature

/-- auth.service.create_access_token at current time now: overwrite the exp
claim with now + ttl and sign. -/
def create_access_token (payload : JwtPayload) (config : AuthConfig)
    (now : Nat) : Token :=
  jwtEncode { payload with exp := some (now + config.token_ttl) }
    config.secret config.algorithm

/-- auth.service.get_token_user: project the auth user onto the SessionUser
shape used as the "user" claim object. -/
def get_token_user (user : AuthUser) : UserClaims :=
  ⟨some user.id, some user.email, some user.organization_id, some user.is_admin⟩

/-- AuthService.get_token at current time now. -/
def AuthService.get_token (user : AuthUser) (config : AuthConfig)
    (now : Nat) : Token :=
  create_access_token ⟨some user.id, some (get_token_user user), none⟩ config now

/-- SessionUser(**decoded_user): succeeds exactly when all four fields are
present, else pydantic raises (caught by get_session_user). -/
def mkSessionUser (c : UserClaims) : Option SessionUser :=
  match c.id, c.email, c.organization_id, c.is_admin with
  | some i, some e, some o, some a => some ⟨i, e, o, a⟩
  | _, _, _, _ => none

/-- AuthService.get_session_user at current time now: decode the token and
build a SessionUser from the "user" claim object; the catch-all except
clause maps every failure (decode error, missing "user" key, missing user
field) to none. -/
def AuthService.get_session_user (config : AuthConfig) (now : Nat)
    (token : Token) : Option SessionUser :=
  match jwtDecode token config.secret config.algorithm now with
  | .error _ => none
  | .ok p =>
    match p.user with
    | none => none
    | some uc => mkSessionUser uc

/-- the string message AuthError carries (AuthError.__str__), identical for
every AuthError raised by the auth service. -/
structure AuthError where
  message : String
deriving DecidableEq, Repr

/-- the one AuthError value the login flow raises. -/
def authError : AuthError :=
  ⟨"AuthenticationError: email and password do not match."⟩

/-- login input (entities.LoginInputDTO). -/
structure LoginInputDTO where
  email : String
  password : String
deriving DecidableEq, Repr

/-- login result (entities.TokenDataDTO). -/
structure TokenDataDTO where
  token : Token
deriving DecidableEq, Repr

/-- AuthService.authenticate_user at current time now, with the bcrypt
compare passed in as the black-box collaborator vp: missing auth record and
failed password verification both raise the same AuthError; otherwise a
token is issued for the matching record. -/
def AuthService.authenticate_user (vp : String → String → Bool)
    (store : Store) (input : LoginInputDTO) (config : AuthConfig)
    (now : Nat) : Except AuthError TokenDataDTO :=
  match MemoryUserRepository.get_auth_user_by_email store input.email with
  | none => .error authError
  | some user =>
    if vp input.password user.password_hash then
      .ok ⟨AuthService.get_token user config now⟩
    else .error authError

/-- the uppercase-to-lowercase table of the ASCII letters. -/
def lowerTable : List (Char × Char) :=
  [('A', 'a'), ('B', 'b'), ('C', 'c'), ('D', 'd'), ('E', 'e'), ('F', 'f'),
    ('G', 'g'), ('H', 'h'), ('I', 'i'), ('J', 'j'), ('K', 'k'), ('L', 'l'),
    ('M', 'm'), ('N', 'n'), ('O', 'o'), ('P', 'p'), ('Q', 'q'), ('R', 'r'),
    ('S', 's'), ('T', 't'), ('U', 'u'), ('V', 'v'), ('W', 'w'), ('X', 'x'),
    ('Y', 'y'), ('Z', 'z')]

/-- ASCII model of Python str.lower on one character: the twenty-six
uppercase letters map to their lowercase forms, everything else is kept. -/
def lowerChar (c : Char) : Char :=
  match lowerTable.find? (fun p => p.1 = c) with
  | some p => p.2
  | none => c

/-- Python s.split on a single-space separator, keeping empty chunks. -/
def splitOnSpace : List Char → List (List Char)
  | [] => [[]]
  | c :: rest =>
    match splitOnSpace rest with
    | [] => []
    | w :: ws => if c = ' ' then [] :: w :: ws else (c :: w) :: ws

/-- middleware get_token_from_header: none models a request without an
authorization header (the KeyError branch); a header whose lowercase form
begins with "bearer " yields chunk 1 of the single-space split; any other
header is returned unchanged. -/
def get_token_from_header (auth_header : Option String) : String :=
  match auth_header with
  | none => ""
  | some h =>
    if ("bearer ".data).isPrefixOf (h.data.map lowerChar) then
      ⟨((splitOnSpace h.data).drop 1).headD []⟩
    else h

/-- a fixture-style record used to instantiate theorems. -/
def uCloe : StoredUser :=
  ⟨"USER-CLOE", "cloe@example.com", "Cloe", "Smith", "GROUP-SHOESTRING-LTD",
    false, "hash-cloe"⟩

/-- a fixture-style admin record used to instantiate theorems. -/
def uAdm : StoredUser :=
  ⟨"USER-ADM", "admin@example.com", "Ada", "Min", "GROUP-HQ", true, "hash-adm"⟩

/-- a two-record store used to instantiate theorems. -/
def demoStore : Store := [uCloe, uAdm]

theorem getField_isSome_of_valid (u : StoredUser) (k : String)
    (h : validField k = true) : (u.getField k).isSome := by
  simp only [validField, Bool.or_eq_true, beq_iff_eq] at h
  rcases h with ((((((h | h) | h) | h) | h) | h) | h) <;> subst h <;>
    simp [StoredUser.getField]

theorem getField_none_of_not_valid (u : StoredUser) (k : String)
    (h : validField k = false) : u.getField k = none := by
  simp only [validField, Bool.or_eq_false_iff, beq_eq_false_iff_ne, ne_eq] at h
  obtain ⟨⟨⟨⟨⟨⟨h1, h2⟩, h3⟩, h4⟩, h5⟩, h6⟩, h7⟩ := h
  simp [StoredUser.getField, h1, h2, h3, h4, h5, h6, h7]

theorem getField_org (u : StoredUser) :
    u.getField "organization_id" = some (.s u.organization_id) := rfl

theorem getField_email (u : StoredUser) :
    u.getField "email" = some (.s u.email) := rfl

theorem filterByKey_ok (k : String) (v : FieldValue) (l : List StoredUser)
    (hvalid : validField k = true) :
    filterByKey k v l = .ok (l.filter (fun e => e.getField k == some v)) := by
  induction l with
  | nil => rfl
  | cons e rest ih =>
    obtain ⟨x, hx⟩ :=
      Option.isSome_iff_exists.mp (getField_isSome_of_valid e k hvalid)
    by_cases hxy : x = v
    · subst hxy
      simp [filterByKey, hx, ih, List.filter_cons]
    · simp [filterByKey, hx, ih, List.filter_cons, hxy]

theorem filter_entities_single (store : Store) (k : String) (v : FieldValue)
    (hvalid : validField k = true) :
    filter_entities_by_attributes store [(k, v)] =
      .ok (store.filter (fun e => e.getField k == some v)) := by
  simp [filter_entities_by_attributes, filterByKey_ok k v store hvalid]

theorem find_users_single (store : Store) (k : String) (v : FieldValue)
    (hvalid : validField k = true) :
    MemoryUserRepository.find_users_by_attributes store [(k, v)] =
      .ok ((store.filter (fun e => e.getField k == some v)).map User.ofStored) := by
  simp [MemoryUserRepository.find_users_by_attributes,
    filter_entities_single store k v hvalid]

theorem find_users_org (store : Store) (o : String) :
    MemoryUserRepository.find_users_by_attributes store [("organization_id", .s o)] =
      .ok ((store.filter (fun e => e.organization_id == o)).map User.ofStored) := by
  rw [find_users_single store "organization_id" (.s o) (by rfl)]
  have hf : store.filter (fun e => e.getField "organization_id" == some (FieldValue.s o)) =
      store.filter (fun e => e.organization_id == o) := by
    apply List.filter_congr
    intro e _
    simp [getField_org]
  rw [hf]

/-- C1: getUserDetails returns absent for an absent caller; for a present
caller it returns absent when the target id is not stored; an admin caller
gets the found record unconditionally; a non-admin caller gets the found
record exactly when its organization_id matches the caller's, and absent
otherwise, whether or not the target exists. -/
theorem C1_get_user_details (store : Store) (uid : String) :
    GetUserDetailsUseCase.execute store uid none = none ∧
    (∀ cu : SessionUser, MemoryUserRepository.get_user_by_id store uid = none →
      GetUserDetailsUseCase.execute store uid (some cu) = none) ∧
    (∀ (cu : SessionUser) (u : User), cu.is_admin = true →
      MemoryUserRepository.get_user_by_id store uid = some u →
      GetUserDetailsUseCase.execute store uid (some cu) = some u) ∧
    (∀ (cu : SessionUser) (u : User), cu.is_admin = false →
      MemoryUserRepository.get_user_by_id store uid = some u →
      (GetUserDetailsUseCase.execute store uid (some cu) = some u ↔
        u.organization_id = cu.organization_id)) ∧
    (∀ cu : SessionUser, cu.is_admin = false →
      (∀ u : User, MemoryUserRepository.get_user_by_id store uid = some u →
        u.organization_id ≠ cu.organization_id) →
      GetUserDetailsUseCase.execute store uid (some cu) = none) := by
  refine ⟨rfl, ?_, ?_, ?_, ?_⟩
  · intro cu h
    cases hadm : cu.is_admin <;>
      simp [GetUserDetailsUseCase.execute, h, hadm]
  · intro cu u hadm hu
    simp [GetUserDetailsUseCase.execute, hadm, hu]
  · intro cu u hadm hu
    by_cases horg : u.organization_id = cu.organization_id <;>
      simp [GetUserDetailsUseCase.execute, hadm, hu, horg]
  · intro cu hadm hall
    cases hu : MemoryUserRepository.get_user_by_id store uid with
    | none => simp [GetUserDetailsUseCase.execute, hadm, hu]
    | some u =>
      simp [GetUserDetailsUseCase.execute, hadm, hu, hall u hu]

/-- witness for C1 at a concrete store: a non-admin caller from another
organization gets absent for an existing target id. -/
theorem C1_get_user_details_witness :
    GetUserDetailsUseCase.execute demoStore "USER-ADM"
      (some ⟨"USER-X", "x@example.com", "GROUP-OTHER", false⟩) = none :=
  (C1_get_user_details demoStore "USER-ADM").2.2.2.2
    ⟨"USER-X", "x@example.com", "GROUP-OTHER", false⟩ rfl (by decide)

/-- C2: listUsers returns the empty list for an absent caller, the exact
findAll result (whose length is the store's record count) for an admin
caller, and the exact findByAttributes result on the caller's
organization_id (whose length is the count of records sharing that
organization) for a non-admin caller. -/
theorem C2_list_users (store : Store) :
    ListUsersUseCase.execute store none = .ok [] ∧
    (∀ cu : SessionUser, cu.is_admin = true →
      ListUsersUseCase.execute store (some cu) =
        .ok (MemoryUserRepository.find_all store) ∧
      (MemoryUserRepository.find_all store).length = store.length) ∧
    (∀ cu : SessionUser, cu.is_admin = false →
      ListUsersUseCase.execute store (some cu) =
        MemoryUserRepository.find_users_by_attributes store
          [("organization_id", .s cu.organization_id)] ∧
      ∃ l : List User, ListUsersUseCase.execute store (some cu) = .ok l ∧
        l.length =
          store.countP (fun u => u.organization_id == cu.organization_id)) := by
  refine ⟨rfl, ?_, ?_⟩
  · intro cu hadm
    exact ⟨by simp [ListUsersUseCase.execute, hadm],
      by simp [MemoryUserRepository.find_all]⟩
  · intro cu hadm
    constructor
    · simp [ListUsersUseCase.execute, hadm]
    · refine ⟨(store.filter
        (fun e => e.organization_id == cu.organization_id)).map User.ofStored,
        ?_, ?_⟩
      · simp [ListUsersUseCase.execute, hadm,
          find_users_org store cu.organization_id]
      · simp [List.countP_eq_length_filter]

/-- witness for C2 at a concrete store: a non-admin caller sees exactly the
records of its own organization. -/
theorem C2_list_users_witness :
    ListUsersUseCase.execute demoStore
      (some ⟨"USER-X", "x@example.com", "GROUP-SHOESTRING-LTD", false⟩) =
      MemoryUserRepository.find_users_by_attributes demoStore
        [("organization_id", .s "GROUP-SHOESTRING-LTD")] ∧
    ∃ l : List User,
      ListUsersUseCase.execute demoStore
        (some ⟨"USER-X", "x@example.com", "GROUP-SHOESTRING-LTD", false⟩) = .ok l ∧
      l.length = demoStore.countP
        (fun u => u.organization_id == "GROUP-SHOESTRING-LTD") :=
  (C2_list_users demoStore).2.2
    ⟨"USER-X", "x@example.com", "GROUP-SHOESTRING-LTD", false⟩ rfl

/-- C6 (spec-modelled store operation): getAuthRecordByEmail returns the
stored record with its password hash when a record with the email exists
(stated under the store's email-uniqueness invariant), and returns absent
as a value when no record has the email. -/
theorem C6_get_auth_record_by_email (store : Store) (email : String) :
    (∀ u : StoredUser, u ∈ store → u.email = email →
      (∀ v : StoredUser, v ∈ store → v.email = email → v = u) →
      MemoryUserRepository.get_auth_user_by_email store email =
        some ⟨u.id, u.email, u.password_hash, u.organization_id, u.is_admin⟩) ∧
    ((∀ u : StoredUser, u ∈ store → u.email ≠ email) →
      MemoryUserRepository.get_auth_user_by_email store email = none) := by
  constructor
  · intro u hu he huniq
    have hfind : store.find? (fun v => v.email = email) = some u := by
      cases hf : store.find? (fun v => v.email = email) with
      | none =>
        rw [List.find?_eq_none] at hf
        have := hf u hu
        simp [he] at this
      | some v =>
        have hv1 := List.find?_some hf
        have hv2 := List.mem_of_find?_eq_some hf
        simp only [decide_eq_true_eq] at hv1
        rw [huniq v hv2 hv1]
    simp [MemoryUserRepository.get_auth_user_by_email, hfind]
  · intro hnone
    have hfind : store.find? (fun v => v.email = email) = none := by
      rw [List.find?_eq_none]
      intro x hx
      simp [hnone x hx]
    simp [MemoryUserRepository.get_auth_user_by_email, hfind]

/-- witness for C6 at a concrete store: the lookup returns the stored
record, password hash included, and absent for an unknown email. -/
theorem C6_get_auth_record_by_email_witness :
    MemoryUserRepository.get_auth_user_by_email demoStore "cloe@example.com" =
      some ⟨"USER-CLOE", "cloe@example.com", "hash-cloe",
        "GROUP-SHOESTRING-LTD", false⟩ ∧
    MemoryUserRepository.get_auth_user_by_email demoStore "nobody@example.com" =
      none :=
  ⟨(C6_get_auth_record_by_email demoStore "cloe@example.com").1 uCloe
      (by decide) rfl (by decide),
    (C6_get_auth_record_by_email demoStore "nobody@example.com").2 (by decide)⟩

/-- C5: authenticate_user raises the one AuthError value, with its single
message text, both when no auth record carries the email and when the
password does not verify against the stored hash, and otherwise returns a
token issued for the matching record. -/
theorem C5_authenticate_uniform_error (vp : String → String → Bool)
    (store : Store) (input : LoginInputDTO) (cfg : AuthConfig) (now : Nat) :
    (MemoryUserRepository.get_auth_user_by_email store input.email = none →
      AuthService.authenticate_user vp store input cfg now = .error authError) ∧
    (∀ u : AuthUser,
      MemoryUserRepository.get_auth_user_by_email store input.email = some u →
      vp input.password u.password_hash = false →
      AuthService.authenticate_user vp store input cfg now = .error authError) ∧
    (∀ u : AuthUser,
      MemoryUserRepository.get_auth_user_by_email store input.email = some u →
      vp input.password u.password_hash = true →
      AuthService.authenticate_user vp store input cfg now =
        .ok ⟨AuthService.get_token u cfg now⟩) := by
  refine ⟨?_, ?_, ?_⟩
  · intro h
    simp [AuthService.authenticate_user, h]
  · intro u hu hpw
    simp [AuthService.authenticate_user, hu, hpw]
  · intro u hu hpw
    simp [AuthService.authenticate_user, hu, hpw]

/-- a concrete stand-in for the bcrypt comparator used in witnesses. -/
def demoVerify (plain hashed : String) : Bool :=
  hashed == "hash-" ++ plain

/-- witness for C5 at a concrete store: unknown email and wrong password
produce the identical error value. -/
theorem C5_authenticate_uniform_error_witness :
    AuthService.authenticate_user demoVerify demoStore
      ⟨"nobody@example.com", "pw"⟩ ⟨"s", "HS256", 3600⟩ 0 = .error authError ∧
    AuthService.authenticate_user demoVerify demoStore
      ⟨"cloe@example.com", "wrong"⟩ ⟨"s", "HS256", 3600⟩ 0 = .error authError :=
  ⟨(C5_authenticate_uniform_error demoVerify demoStore
      ⟨"nobody@example.com", "pw"⟩ ⟨"s", "HS256", 3600⟩ 0).1 (by decide),
    (C5_authenticate_uniform_error demoVerify demoStore
      ⟨"cloe@example.com", "wrong"⟩ ⟨"s", "HS256", 3600⟩ 0).2.1
      ⟨"USER-CLOE", "cloe@example.com", "hash-cloe",
        "GROUP-SHOESTRING-LTD", false⟩ (by decide) (by decide)⟩

theorem get_user_by_email_eq (store : Store) (email : String) :
    UserService.get_user_by_email store email =
      .ok (((store.filter (fun e => e.email == email)).map User.ofStored).head?) := by
  unfold UserService.get_user_by_email
  rw [find_users_single store "email" (.s email) (by rfl)]
  have hf : store.filter (fun e => e.getField "email" == some (FieldValue.s email)) =
      store.filter (fun e => e.email == email) := by
    apply List.filter_congr
    intro e _
    simp [getField_email]
  rw [hf]
  generalize (store.filter (fun e => e.email == email)).map User.ofStored = l
  cases l <;> rfl

/-- C8: save_new_user fails with the duplicate-email error and leaves the
store untouched when a stored record already carries the email, and
otherwise appends exactly the new record and returns its projection. -/
theorem C8_save_new_user (store : Store) (data : NewUserDTO) (freshId : String) :
    ((∃ u : StoredUser, u ∈ store ∧ u.email = data.email) →
      UserService.save_new_user store data freshId =
        (.error (.duplicateEmail data.email), store)) ∧
    ((∀ u : StoredUser, u ∈ store → u.email ≠ data.email) →
      UserService.save_new_user store data freshId =
        (.ok (User.ofStored ⟨freshId, data.email, data.first_name,
            data.last_name, data.organization_id, data.is_admin,
            data.password_hash⟩),
          store ++ [⟨freshId, data.email, data.first_name, data.last_name,
            data.organization_id, data.is_admin, data.password_hash⟩])) := by
  constructor
  · rintro ⟨u, hu, he⟩
    cases hl : store.filter (fun e => e.email == data.email) with
    | nil =>
      rw [List.filter_eq_nil_iff] at hl
      have := hl u hu
      simp [he] at this
    | cons x xs =>
      simp [UserService.save_new_user, get_user_by_email_eq, hl]
  · intro hnone
    have hl : store.filter (fun e => e.email == data.email) = [] := by
      rw [List.filter_eq_nil_iff]
      intro u hu
      simp [hnone u hu]
    simp [UserService.save_new_user, get_user_by_email_eq, hl,
      MemoryUserRepository.save_new_user]

/-- witness for C8 at a concrete store: creating with an email already in
the store fails with the duplicate error and leaves the store unchanged. -/
theorem C8_save_new_user_witness :
    UserService.save_new_user demoStore
      ⟨"cloe@example.com", "Other", "Person", "GROUP-NEW", "hash-x", false⟩
      "FRESH-ID" =
      (.error (.duplicateEmail "cloe@example.com"), demoStore) :=
  (C8_save_new_user demoStore
      ⟨"cloe@example.com", "Other", "Person", "GROUP-NEW", "hash-x", false⟩
      "FRESH-ID").1 ⟨uCloe, by decide, rfl⟩

/-- a default stored record for positional indexing statements. -/
def dummyStored : StoredUser := ⟨"", "", "", "", "", false, ""⟩

theorem find?_update_self (store : Store) (user : User) :
    (store.map (fun s => if s.id = user.id then mergeUser s user else s)).find?
        (fun s => s.id = user.id) =
      (store.find? (fun s => s.id = user.id)).map (fun s => mergeUser s user) := by
  induction store with
  | nil => rfl
  | cons e rest ih =>
    by_cases h : e.id = user.id
    · simp [List.find?_cons, h, mergeUser]
    · simp [List.find?_cons, h, ih]

theorem find?_update_other (store : Store) (user : User) (other : String)
    (hne : other ≠ user.id) :
    (store.map (fun s => if s.id = user.id then mergeUser s user else s)).find?
        (fun s => s.id = other) = store.find? (fun s => s.id = other) := by
  induction store with
  | nil => rfl
  | cons e rest ih =>
    simp only [List.map_cons]
    by_cases h : e.id = user.id
    · have hb1 : (decide ((mergeUser e user).id = other)) = false := by
        rw [decide_eq_false_iff_not]
        intro heq
        exact hne heq.symm
      have hb2 : (decide (e.id = other)) = false := by
        rw [decide_eq_false_iff_not]
        intro heq
        rw [heq] at h
        exact hne h
      rw [if_pos h]
      simp only [List.find?_cons, hb1, hb2]
      exact ih
    · rw [if_neg h]
      by_cases h3 : e.id = other
      · have hb : (decide (e.id = other)) = true := by simp [h3]
        simp only [List.find?_cons, hb]
      · have hb : (decide (e.id = other)) = false := by simp [h3]
        simp only [List.find?_cons, hb]
        exact ih

/-- C10: when the target id is stored, update_user returns the passed-in
record, afterwards the store maps that id to exactly that record, lookups
under every other id are unchanged, every position holding a different id
keeps its exact stored dict, and the record count is unchanged. -/
theorem C10_update_user (store : Store) (user : User)
    (hmem : ∃ s : StoredUser, s ∈ store ∧ s.id = user.id) :
    (MemoryUserRepository.update_user store user).1 = .ok user ∧
    MemoryUserRepository.get_user_by_id
      (MemoryUserRepository.update_user store user).2 user.id = some user ∧
    (∀ other : String, other ≠ user.id →
      MemoryUserRepository.get_user_by_id
        (MemoryUserRepository.update_user store user).2 other =
        MemoryUserRepository.get_user_by_id store other) ∧
    (∀ i : Nat, i < store.length → (store.getD i dummyStored).id ≠ user.id →
      (MemoryUserRepository.update_user store user).2.getD i dummyStored =
        store.getD i dummyStored) ∧
    (MemoryUserRepository.update_user store user).2.length = store.length := by
  obtain ⟨s0, hs0, hid0⟩ := hmem
  have hany : store.any (fun s => s.id = user.id) = true := by
    rw [List.any_eq_true]
    exact ⟨s0, hs0, by simp [hid0]⟩
  have hsnd : (MemoryUserRepository.update_user store user).2 =
      store.map (fun s => if s.id = user.id then mergeUser s user else s) := by
    simp [MemoryUserRepository.update_user, hany]
  refine ⟨?_, ?_, ?_, ?_, ?_⟩
  · simp [MemoryUserRepository.update_user, hany]
  · have hfind : ∃ v, store.find? (fun s => s.id = user.id) = some v := by
      have : (store.find? (fun s => s.id = user.id)).isSome := by
        rw [List.find?_isSome]
        exact ⟨s0, hs0, by simp [hid0]⟩
      exact Option.isSome_iff_exists.mp this
    obtain ⟨v, hv⟩ := hfind
    unfold MemoryUserRepository.get_user_by_id
    rw [hsnd, find?_update_self, hv]
    rfl
  · intro other hne
    unfold MemoryUserRepository.get_user_by_id
    rw [hsnd, find?_update_other store user other hne]
  · intro i hi hid
    have h1 : store[i]? = some store[i] := List.getElem?_eq_getElem hi
    have h2 : store.getD i dummyStored = store[i] := by
      rw [List.getD_eq_getElem?_getD, h1]
      rfl
    rw [h2] at hid
    simp [MemoryUserRepository.update_user, hany,
      List.getD_eq_getElem?_getD, List.getElem?_map, h1, hid, h2]
  · simp [MemoryUserRepository.update_user, hany]

/-- witness for C10 at a concrete store: updating the stored record under
an existing id makes the store return exactly the argument under that id. -/
theorem C10_update_user_witness :
    MemoryUserRepository.get_user_by_id
      (MemoryUserRepository.update_user demoStore
        ⟨"USER-CLOE", "new@example.com", "New", "Name", "GROUP-NEW", true⟩).2
      "USER-CLOE" =
      some ⟨"USER-CLOE", "new@example.com", "New", "Name", "GROUP-NEW", true⟩ :=
  (C10_update_user demoStore
      ⟨"USER-CLOE", "new@example.com", "New", "Name", "GROUP-NEW", true⟩
      ⟨uCloe, by decide, rfl⟩).2.1

/-- C3: a token issued by get_token and verified by get_session_user under
the same config yields a session user whose id, email, organization_id and
is_admin equal the issuing record's fields, whenever verification happens
before the token's expiry. -/
theorem C3_token_roundtrip (u : AuthUser) (cfg : AuthConfig) (t1 t2 : Nat)
    (_httl : 0 < cfg.token_ttl) (hexp : t2 < t1 + cfg.token_ttl) :
    AuthService.get_session_user cfg t2 (AuthService.get_token u cfg t1) =
      some ⟨u.id, u.email, u.organization_id, u.is_admin⟩ := by
  have hlt : ¬ (t1 + cfg.token_ttl < t2) := by omega
  simp [AuthService.get_token, create_access_token, jwtEncode,
    AuthService.get_session_user, jwtDecode, hlt, get_token_user, mkSessionUser]

/-- witness for C3 at a concrete record, config and time. -/
theorem C3_token_roundtrip_witness :
    AuthService.get_session_user ⟨"secret", "HS256", 3600⟩ 10
      (AuthService.get_token
        ⟨"USER-CLOE", "cloe@example.com", "hash-cloe", "GROUP-SHOESTRING-LTD",
          false⟩ ⟨"secret", "HS256", 3600⟩ 0) =
      some ⟨"USER-CLOE", "cloe@example.com", "GROUP-SHOESTRING-LTD", false⟩ :=
  C3_token_roundtrip
    ⟨"USER-CLOE", "cloe@example.com", "hash-cloe", "GROUP-SHOESTRING-LTD",
      false⟩ ⟨"secret", "HS256", 3600⟩ 0 10 (by decide) (by decide)

/-- replace the character at position i of a string. -/
def corruptAt (s : String) (i : Nat) (c : Char) : String :=
  ⟨s.data.set i c⟩

theorem corruptAt_ne (s : String) (i : Nat) (c : Char)
    (hi : i < s.data.length) (hc : c ≠ s.data.getD i c) :
    corruptAt s i c ≠ s := by
  intro heq
  have hdata : s.data.set i c = s.data := congrArg String.data heq
  have hlen : i < (s.data.set i c).length := by
    rw [List.length_set]
    exact hi
  have h1 : (s.data.set i c)[i]? = some c := by
    rw [List.getElem?_eq_getElem hlen, List.getElem_set_self hlen]
  rw [hdata] at h1
  apply hc
  rw [List.getD_eq_getElem?_getD, h1]
  rfl

theorem jwtDecode_ok_eq {p q : JwtPayload} {sig secret algorithm : String}
    {now : Nat} (h : jwtDecode (.jwt p sig) secret algorithm now = .ok q) :
    q = p := by
  simp only [jwtDecode] at h
  by_cases hs : sig = signPayload secret algorithm p
  · rw [if_pos hs] at h
    cases hexp : p.exp with
    | none =>
      simp only [hexp] at h
      cases h
      rfl
    | some e =>
      simp only [hexp] at h
      by_cases hlt : e < now
      · rw [if_pos hlt] at h
        cases h
      · rw [if_neg hlt] at h
        cases h
        rfl
  · rw [if_neg hs] at h
    cases h

theorem mkSessionUser_none {uc : UserClaims}
    (h : uc.id = none ∨ uc.email = none ∨ uc.organization_id = none ∨
      uc.is_admin = none) : mkSessionUser uc = none := by
  rcases uc with ⟨i, e, o, a⟩
  rcases i with _ | i <;> rcases e with _ | e <;> rcases o with _ | o <;>
    rcases a with _ | a <;> simp_all [mkSessionUser]

/-- C4: get_session_user fails open to absent, never to an error: it
returns none for a non-JWT string, for any signature other than the one
the config produces over the claims (in particular for a token whose
signature has any one character corrupted), for an expired token, for a
payload missing the user claim object, and for a user claim object missing
any field; totality of the Lean function mirrors the catch-all except
clause that keeps every decode exception away from the caller. -/
theorem C4_verify_fails_open (cfg : AuthConfig) (now : Nat) :
    (∀ raw : String,
      AuthService.get_session_user cfg now (.malformed raw) = none) ∧
    (∀ (p : JwtPayload) (sig : String),
      sig ≠ signPayload cfg.secret cfg.algorithm p →
      AuthService.get_session_user cfg now (.jwt p sig) = none) ∧
    (∀ (p : JwtPayload) (i : Nat) (c : Char),
      i < (signPayload cfg.secret cfg.algorithm p).data.length →
      c ≠ (signPayload cfg.secret cfg.algorithm p).data.getD i c →
      AuthService.get_session_user cfg now
        (.jwt p (corruptAt (signPayload cfg.secret cfg.algorithm p) i c)) =
        none) ∧
    (∀ (p : JwtPayload) (sig : String) (e : Nat), p.exp = some e → e < now →
      AuthService.get_session_user cfg now (.jwt p sig) = none) ∧
    (∀ (p : JwtPayload) (sig : String), p.user = none →
      AuthService.get_session_user cfg now (.jwt p sig) = none) ∧
    (∀ (p : JwtPayload) (sig : String) (uc : UserClaims), p.user = some uc →
      (uc.id = none ∨ uc.email = none ∨ uc.organization_id = none ∨
        uc.is_admin = none) →
      AuthService.get_session_user cfg now (.jwt p sig) = none) := by
  have hbad : ∀ (p : JwtPayload) (sig : String),
      sig ≠ signPayload cfg.secret cfg.algorithm p →
      AuthService.get_session_user cfg now (.jwt p sig) = none := by
    intro p sig h
    simp [AuthService.get_session_user, jwtDecode, h]
  refine ⟨fun raw => rfl, hbad, ?_, ?_, ?_, ?_⟩
  · intro p i c hi hc
    exact hbad p _ (corruptAt_ne _ i c hi hc)
  · intro p sig e he hlt
    by_cases hs : sig = signPayload cfg.secret cfg.algorithm p
    · simp [AuthService.get_session_user, jwtDecode, hs, he, hlt]
    · exact hbad p sig hs
  · intro p sig hu
    cases hdec : jwtDecode (.jwt p sig) cfg.secret cfg.algorithm now with
    | error err => simp [AuthService.get_session_user, hdec]
    | ok q =>
      have hq := jwtDecode_ok_eq hdec
      subst hq
      simp [AuthService.get_session_user, hdec, hu]
  · intro p sig uc hu hmiss
    cases hdec : jwtDecode (.jwt p sig) cfg.secret cfg.algorithm now with
    | error err => simp [AuthService.get_session_user, hdec]
    | ok q =>
      have hq := jwtDecode_ok_eq hdec
      subst hq
      simp [AuthService.get_session_user, hdec, hu, mkSessionUser_none hmiss]

/-- witness for C4: corrupting the first character of a concrete issued
token's signature makes verification return absent. -/
theorem C4_verify_fails_open_witness :
    AuthService.get_session_user ⟨"secret", "HS256", 3600⟩ 0
      (.jwt ⟨some "USER-CLOE",
          some ⟨some "USER-CLOE", some "cloe@example.com",
            some "GROUP-SHOESTRING-LTD", some false⟩, some 3600⟩
        (corruptAt
          (signPayload "secret" "HS256"
            ⟨some "USER-CLOE",
              some ⟨some "USER-CLOE", some "cloe@example.com",
                some "GROUP-SHOESTRING-LTD", some false⟩, some 3600⟩)
          0 'X')) = none :=
  (C4_verify_fails_open ⟨"secret", "HS256", 3600⟩ 0).2.2.1
    ⟨some "USER-CLOE",
      some ⟨some "USER-CLOE", some "cloe@example.com",
        some "GROUP-SHOESTRING-LTD", some false⟩, some 3600⟩
    0 'X' (by decide) (by decide)

/-- C9 counterexample: at a concrete two-record store, a filter containing
the unknown field name "bogus" — preceded by an email condition matching no
record — returns an empty result value instead of failing with the
filter error, refuting the unconditional error clause of the claim. -/
theorem C9_counterexample :
    MemoryUserRepository.find_users_by_attributes demoStore
      [("email", .s "nobody@example.com"), ("bogus", .s "x")] = .ok [] ∧
    ∀ err : RepoError,
      MemoryUserRepository.find_users_by_attributes demoStore
        [("email", .s "nobody@example.com"), ("bogus", .s "x")] ≠
        .error err := by
  constructor
  · rfl
  · intro err h
    have h1 : MemoryUserRepository.find_users_by_attributes demoStore
        [("email", .s "nobody@example.com"), ("bogus", .s "x")] = .ok [] := rfl
    rw [h1] at h
    cases h

/-- C9 amended: findByAttributes returns exactly the records satisfying
every given field/value pair (conjunction) when all given field names are
record fields, the empty filter degrades to findAll, and a step naming an
unknown field fails with the KeyError-backed filter error exactly when a
record is still present when that step runs (the counterexample shows the
empty-survivor case returning a value instead). -/
theorem C9_filter_by_attributes (store : Store)
    (attrs : List (String × FieldValue)) :
    MemoryUserRepository.find_users_by_attributes store [] =
      .ok (MemoryUserRepository.find_all store) ∧
    ((∀ kv ∈ attrs, validField kv.1 = true) →
      filter_entities_by_attributes store attrs =
        .ok (store.filter
          (fun e => attrs.all (fun kv => e.getField kv.1 == some kv.2)))) ∧
    (∀ (k : String) (v : FieldValue) (rest : List (String × FieldValue)),
      validField k = false → store ≠ [] →
      filter_entities_by_attributes store ((k, v) :: rest) =
        .error (.keyError k)) := by
  refine ⟨rfl, ?_, ?_⟩
  · induction attrs generalizing store with
    | nil =>
      intro _
      simp [filter_entities_by_attributes]
    | cons kv rest ih =>
      intro hvalid
      obtain ⟨k, v⟩ := kv
      have hk : validField k = true := hvalid (k, v) (by simp)
      have hrest : ∀ kv ∈ rest, validField kv.1 = true := fun kv hkv =>
        hvalid kv (by simp [hkv])
      simp only [filter_entities_by_attributes, filterByKey_ok k v store hk]
      rw [ih _ hrest]
      congr 1
      rw [List.filter_filter]
      apply List.filter_congr
      intro e _
      simp only [List.all_cons]
      rw [Bool.and_comm]
  · intro k v rest hk hne
    cases store with
    | nil => exact absurd rfl hne
    | cons e es =>
      have h1 : StoredUser.getField e k = none :=
        getField_none_of_not_valid e k hk
      simp [filter_entities_by_attributes, filterByKey, h1]

/-- witness for the amended C9 at a concrete store: the unknown field
"bogus" applied while both records are present fails with the filter
error. -/
theorem C9_filter_by_attributes_witness :
    filter_entities_by_attributes demoStore [("bogus", .s "x")] =
      .error (.keyError "bogus") :=
  (C9_filter_by_attributes demoStore [("bogus", .s "x")]).2.2
    "bogus" (.s "x") [] (by decide) (by decide)

theorem lowerChar_space {c : Char} (h : lowerChar c = ' ') : c = ' ' := by
  unfold lowerChar at h
  cases hf : lowerTable.find? (fun p => p.1 = c) with
  | none =>
    rw [hf] at h
    exact h
  | some p =>
    rw [hf] at h
    have hm := List.mem_of_find?_eq_some hf
    exfalso
    fin_cases hm <;> simp_all

theorem splitOnSpace_cons (c : Char) (rest : List Char) :
    splitOnSpace (c :: rest) =
      match splitOnSpace rest with
      | [] => []
      | w :: ws => if c = ' ' then [] :: w :: ws else (c :: w) :: ws := rfl

theorem splitOnSpace_ne_nil (l : List Char) : splitOnSpace l ≠ [] := by
  induction l with
  | nil => simp [splitOnSpace]
  | cons c rest ih =>
    rw [splitOnSpace_cons]
    cases h : splitOnSpace rest with
    | nil => exact absurd h ih
    | cons w ws => by_cases hc : c = ' ' <;> simp [hc]

theorem splitOnSpace_head (l : List Char) :
    (splitOnSpace l).headD [] = l.takeWhile (fun c => !(c == ' ')) := by
  induction l with
  | nil => rfl
  | cons c rest ih =>
    rw [splitOnSpace_cons]
    cases h : splitOnSpace rest with
    | nil => exact absurd h (splitOnSpace_ne_nil rest)
    | cons w ws =>
      rw [h] at ih
      simp only [List.headD_cons] at ih
      by_cases hc : c = ' '
      · subst hc
        simp [List.takeWhile_cons]
      · simp [List.takeWhile_cons, hc, ih]

theorem splitOnSpace_append (w : List Char) (hw : ' ' ∉ w)
    (rest : List Char) :
    splitOnSpace (w ++ ' ' :: rest) = w :: splitOnSpace rest := by
  induction w with
  | nil =>
    simp only [List.nil_append]
    rw [splitOnSpace_cons]
    cases h : splitOnSpace rest with
    | nil => exact absurd h (splitOnSpace_ne_nil rest)
    | cons a as => simp
  | cons c cw ih =>
    have hc : c ≠ ' ' := fun hcc => hw (by simp [hcc])
    have hmem : ' ' ∉ cw := fun hcc => hw (by simp [hcc])
    simp only [List.cons_append]
    rw [splitOnSpace_cons, ih hmem]
    simp [hc]

/-- C7 counterexample: the header "Bearer a b" carries the token "a b"
after stripping the prefix, but extraction returns only "a", refuting the
strip-the-prefix clause of the claim. -/
theorem C7_counterexample :
    get_token_from_header (some "Bearer a b") = "a" ∧
    ("Bearer a b").drop 7 = "a b" ∧ ("a" : String) ≠ "a b" := by
  refine ⟨?_, ?_, ?_⟩ <;> decide

/-- C7 amended: an absent header yields the empty token; a header whose
lowercased form does not start with "bearer " is used unchanged; a header
made of any case variant of "Bearer " followed by a rest yields the chunk
of the rest before its first space — which is the whole rest, i.e. the
prefix-stripped header, exactly when the rest contains no space. -/
theorem C7_token_extraction :
    get_token_from_header none = "" ∧
    (∀ h : String,
      ("bearer ".data).isPrefixOf (h.data.map lowerChar) = false →
      get_token_from_header (some h) = h) ∧
    (∀ w rest : List Char, w.map lowerChar = "bearer ".data → ' ' ∉ rest →
      get_token_from_header (some ⟨w ++ rest⟩) = ⟨rest⟩) ∧
    (∀ w rest : List Char, w.map lowerChar = "bearer ".data →
      get_token_from_header (some ⟨w ++ rest⟩) =
        ⟨rest.takeWhile (fun c => !(c == ' '))⟩) := by
  have hsplit : ∀ w rest : List Char, w.map lowerChar = "bearer ".data →
      get_token_from_header (some ⟨w ++ rest⟩) =
        ⟨rest.takeWhile (fun c => !(c == ' '))⟩ := by
    intro w rest hw
    rcases w with _ | ⟨c0, _ | ⟨c1, _ | ⟨c2, _ | ⟨c3, _ | ⟨c4, _ | ⟨c5,
      _ | ⟨c6, _ | ⟨c7, w⟩⟩⟩⟩⟩⟩⟩⟩ <;>
      simp only [List.map_cons, List.map_nil,
        show "bearer ".data = ['b', 'e', 'a', 'r', 'e', 'r', ' '] from rfl,
        List.cons.injEq, List.map_eq_nil_iff, and_true,
        List.nil_eq, reduceCtorEq, false_and, and_false] at hw
    obtain ⟨h0, h1, h2, h3, h4, h5, h6⟩ := hw
    have hc6 : c6 = ' ' := lowerChar_space h6
    have hne : ∀ c : Char, lowerChar c ≠ ' ' → c ≠ ' ' := by
      intro c hcl hcc
      subst hcc
      exact hcl rfl
    have hn0 : c0 ≠ ' ' := hne c0 (by rw [h0]; decide)
    have hn1 : c1 ≠ ' ' := hne c1 (by rw [h1]; decide)
    have hn2 : c2 ≠ ' ' := hne c2 (by rw [h2]; decide)
    have hn3 : c3 ≠ ' ' := hne c3 (by rw [h3]; decide)
    have hn4 : c4 ≠ ' ' := hne c4 (by rw [h4]; decide)
    have hn5 : c5 ≠ ' ' := hne c5 (by rw [h5]; decide)
    subst hc6
    have hpre : ("bearer ".data).isPrefixOf
        ((c0 :: c1 :: c2 :: c3 :: c4 :: c5 :: ' ' :: rest).map lowerChar) =
        true := by
      simp only [List.map_cons, h0, h1, h2, h3, h4, h5,
        show lowerChar ' ' = ' ' from by decide]
      rw [List.isPrefixOf_iff_prefix]
      exact List.prefix_append ['b', 'e', 'a', 'r', 'e', 'r', ' ']
        (rest.map lowerChar)
    have hmem : ' ' ∉ [c0, c1, c2, c3, c4, c5] := by
      simp only [List.mem_cons, List.not_mem_nil, or_false]
      push_neg
      exact ⟨fun hcc => hn0 hcc.symm, fun hcc => hn1 hcc.symm,
        fun hcc => hn2 hcc.symm, fun hcc => hn3 hcc.symm,
        fun hcc => hn4 hcc.symm, fun hcc => hn5 hcc.symm⟩
    have hspA := splitOnSpace_append [c0, c1, c2, c3, c4, c5] hmem rest
    simp only [List.cons_append, List.nil_append] at hspA
    simp only [get_token_from_header, List.cons_append, List.nil_append]
    rw [if_pos hpre, hspA, List.drop_one, List.tail_cons, splitOnSpace_head]
  refine ⟨rfl, ?_, ?_, hsplit⟩
  · intro h hfalse
    simp [get_token_from_header, hfalse]
  · intro w rest hw hmem
    rw [hsplit w rest hw]
    congr 1
    rw [List.takeWhile_eq_self_iff]
    intro c hc
    simp only [Bool.not_eq_eq_eq_not, Bool.not_true, beq_eq_false_iff_ne, ne_eq]
    intro hcc
    subst hcc
    exact hmem hc

/-- witness for the amended C7: a mixed-case bearer header with a further
space yields the first chunk after the prefix. -/
theorem C7_token_extraction_witness :
    get_token_from_header (some ⟨"BeArEr ".data ++ "tok en".data⟩) =
      ⟨("tok en".data).takeWhile (fun c => !(c == ' '))⟩ :=
  C7_token_extraction.2.2.2 ("BeArEr ".data) ("tok en".data) (by decide)

end App
